import Mathlib

/-!
Verification of `gen_plots.py` (GENUX-FORGE): a script that parses a CSV of
classifier metrics into five parallel float columns and renders three charts.

The CSV input is modelled after Python's `csv` module has already split the
text into records: a `List (List String)` whose head is the header row and
whose tail holds the data rows.  `csv.DictReader` semantics (per-row dict of
fieldname to value, `restval = None` padding for short rows, later duplicate
fieldnames overwriting earlier ones, blank records skipped) are embedded
explicitly.  Floats are modelled as rationals; `pyFloat` models Python's
`float()` on finite decimal literals.  The three matplotlib chart blocks are
embedded as `ChartJob` values and the script's observable behaviour (files
written, lines printed) as a trace of `Event`s produced by `run`.
-/

namespace GenPlots

/-- The digits of a numeral read as a natural number. -/
def digitsToNat (cs : List Char) : Nat :=
  cs.foldl (fun n c => 10 * n + (c.toNat - '0'.toNat)) 0

/-- ASCII whitespace accepted (and stripped) by Python's `float()`. -/
def isSpaceChar (c : Char) : Bool :=
  c = ' ' || c = '\t' || c = '\n' || c = '\r' || c = '\x0b' || c = '\x0c'

/-- Split a character list into its leading run of decimal digits and the rest. -/
def spanDigits (cs : List Char) : List Char × List Char :=
  (cs.takeWhile Char.isDigit, cs.dropWhile Char.isDigit)

/-- Parse an unsigned decimal mantissa `digits[.digits]`; at least one digit
must be present on one side of the point.  Returns the value and the rest. -/
def parseMantissa (cs : List Char) : Option (Rat × List Char) :=
  let (ip, rest) := spanDigits cs
  match rest with
  | '.' :: rest2 =>
    let (fp, rest3) := spanDigits rest2
    if ip = [] && fp = [] then none
    else some ((digitsToNat ip : Rat) + (digitsToNat fp : Rat) / ((10 : Rat) ^ fp.length), rest3)
  | _ =>
    if ip = [] then none
    else some ((digitsToNat ip : Rat), rest)

/-- Parse an optional exponent part `(e|E)[+|-]digits`. -/
def parseExponent (cs : List Char) : Option (Int × List Char) :=
  match cs with
  | 'e' :: rest | 'E' :: rest =>
    match rest with
    | '+' :: rest2 =>
      let (ds, rest3) := spanDigits rest2
      if ds = [] then none else some ((digitsToNat ds : Int), rest3)
    | '-' :: rest2 =>
      let (ds, rest3) := spanDigits rest2
      if ds = [] then none else some (-(digitsToNat ds : Int), rest3)
    | _ =>
      let (ds, rest3) := spanDigits rest
      if ds = [] then none else some ((digitsToNat ds : Int), rest3)
  | _ => some (0, cs)

/-- Models Python's `float(s)` on finite decimal literals: optional
surrounding ASCII whitespace, optional sign, decimal mantissa, optional
decimal exponent.  `none` models a `ValueError`.  (The exotic inputs
`float()` also accepts — `inf`, `nan`, underscore separators — are outside
the model; no claim depends on them.) -/
def pyFloat (s : String) : Option Rat :=
  let cs := ((s.toList.dropWhile isSpaceChar).reverse.dropWhile isSpaceChar).reverse
  let (sign, body) : Rat × List Char :=
    match cs with
    | '+' :: rest => (1, rest)
    | '-' :: rest => (-1, rest)
    | _ => (1, cs)
  match parseMantissa body with
  | none => none
  | some (m, rest) =>
    match parseExponent rest with
    | none => none
    | some (e, rest2) =>
      if rest2 = [] then some (sign * m * (10 : Rat) ^ e) else none

/-- Index of the last occurrence of `name` in `fieldnames`, if any.  Models
which header column a `DictReader` row-dict lookup resolves to: the dict is
built by `dict(zip(fieldnames, row))` followed by `restval` padding, so a
later duplicate fieldname overwrites an earlier one. -/
def lastIndexOf (name : String) : List String → Option Nat
  | [] => none
  | x :: xs =>
    match lastIndexOf name xs with
    | some k => some (k + 1)
    | none => if x = name then some 0 else none

/-- `row[name]` on a `csv.DictReader` row-dict. `none` models a `KeyError`
(`name` is not among the fieldnames); `some none` models the `restval`
value `None` (the row is too short to cover that column); `some (some v)`
is a present field value. -/
def dictLookup (fieldnames row : List String) (name : String) : Option (Option String) :=
  match lastIndexOf name fieldnames with
  | none => none
  | some j => some (row.get? j)

/-- The errors the loader loop can raise: `keyError` from `row[name]` with a
name absent from the header, `typeError` from `float(None)` on a short row,
`valueError` from `float` on a non-numeric field.  The spec's `FormatError`
taxon covers all three. -/
inductive LoadError
  | keyError
  | typeError
  | valueError
deriving Repr, DecidableEq

/-- The `data` dict of the script: five parallel ordered sequences. -/
structure MetricsTable where
  threshold : List Rat
  precision : List Rat
  «recall» : List Rat
  f1 : List Rat
  fpr : List Rat
deriving Repr, DecidableEq

/-- The initial `data` dict: five empty lists. -/
def emptyTable : MetricsTable := ⟨[], [], [], [], []⟩

/-- `float(row[name])` for one field of one row. -/
def parseField (fieldnames row : List String) (name : String) : Except LoadError Rat :=
  match dictLookup fieldnames row name with
  | none => .error .keyError
  | some none => .error .typeError
  | some (some s) =>
    match pyFloat s with
    | none => .error .valueError
    | some q => .ok q

/-- One iteration of the loader loop, in source order: parse and append
`threshold`, then `precision`, then `recall`, then `f1`, then `fpr`.  On
error the partially mutated `data` dict at the moment the exception is
raised is returned alongside the error. -/
def loadRow (d : MetricsTable) (fieldnames row : List String) :
    Except (LoadError × MetricsTable) MetricsTable :=
  match parseField fieldnames row "threshold" with
  | .error e => .error (e, d)
  | .ok t =>
    let d1 : MetricsTable := { d with threshold := d.threshold ++ [t] }
    match parseField fieldnames row "precision" with
    | .error e => .error (e, d1)
    | .ok p =>
      let d2 : MetricsTable := { d1 with precision := d1.precision ++ [p] }
      match parseField fieldnames row "recall" with
      | .error e => .error (e, d2)
      | .ok r =>
        let d3 : MetricsTable := { d2 with «recall» := d2.«recall» ++ [r] }
        match parseField fieldnames row "f1" with
        | .error e => .error (e, d3)
        | .ok f =>
          let d4 : MetricsTable := { d3 with f1 := d3.f1 ++ [f] }
          match parseField fieldnames row "fpr" with
          | .error e => .error (e, d4)
          | .ok fp => .ok { d4 with fpr := d4.fpr ++ [fp] }

/-- The loader loop over the data records.  `csv.DictReader` silently skips
blank records (`row == []`). -/
def loadRows (fieldnames : List String) (d : MetricsTable) :
    List (List String) → Except (LoadError × MetricsTable) MetricsTable
  | [] => .ok d
  | row :: rest =>
    if row = [] then loadRows fieldnames d rest
    else
      match loadRow d fieldnames row with
      | .error e => .error e
      | .ok d' => loadRows fieldnames d' rest

/-- The whole CSV load: the first record is the `DictReader` header, the
rest are data records.  An empty file yields the empty table (the loop body
never runs). -/
def loadCSV (records : List (List String)) : Except (LoadError × MetricsTable) MetricsTable :=
  match records with
  | [] => .ok emptyTable
  | header :: dataRows => loadRows header emptyTable dataRows

/-- The hard-coded input path of the script. -/
def inputPath : String := "/workspaces/GENUX-FORGE/sensitivity-metrics.csv"

/-- Output path of plot 1 (precision-recall curve). -/
def outPR : String := "/workspaces/GENUX-FORGE/sensitivity-plot-pr.png"

/-- Output path of plot 2 (metrics vs threshold). -/
def outThreshold : String := "/workspaces/GENUX-FORGE/sensitivity-plot-threshold.png"

/-- Output path of plot 3 (pseudo-ROC). -/
def outROC : String := "/workspaces/GENUX-FORGE/sensitivity-plot-roc.png"

/-- One chart block of the script: the labelled `(x, y)` series handed to
`ax.plot`, the `y`-values of any `ax.axhline` calls, and the path handed to
`fig.savefig`. -/
structure ChartJob where
  series : List (String × List Rat × List Rat)
  axhlines : List Rat
  outputPath : String
deriving Repr, DecidableEq

/-- Plot 1: `ax.plot(data['recall'], data['precision'], ..., label='Precision-Recall')`. -/
def job1 (d : MetricsTable) : ChartJob :=
  { series := [("Precision-Recall", d.«recall», d.precision)]
    axhlines := []
    outputPath := outPR }

/-- Plot 2: precision, recall and f1 against threshold, plus `ax.axhline(y=0)`. -/
def job2 (d : MetricsTable) : ChartJob :=
  { series := [("Precision", d.threshold, d.precision),
               ("Recall", d.threshold, d.«recall»),
               ("F1", d.threshold, d.f1)]
    axhlines := [0]
    outputPath := outThreshold }

/-- Plot 3: `ax.plot(data['fpr'], data['recall'], ..., label='ROC (approx)')`. -/
def job3 (d : MetricsTable) : ChartJob :=
  { series := [("ROC (approx)", d.fpr, d.«recall»)]
    axhlines := []
    outputPath := outROC }

/-- The three chart blocks of the script in program order, all reading the
same loaded table. -/
def jobsOf (d : MetricsTable) : List ChartJob := [job1 d, job2 d, job3 d]

/-- Observable events of a script run: a file written by `fig.savefig`, a
line printed to the console. -/
inductive Event
  | saved (path : String)
  | printed (line : String)
deriving Repr, DecidableEq

/-- How a run ends: normal completion, an I/O failure (missing input file or
unwritable output path), or an exception escaping the loader loop. -/
inductive Outcome
  | success
  | ioError
  | loadFailure (e : LoadError)
deriving Repr, DecidableEq

/-- The environment a run sees: the records of the input CSV (`none` when
the file is missing, so `open` raises `IOError`), and which output paths
`fig.savefig` can write (`false` makes `savefig` raise an `IOError`). -/
structure Env where
  inputFile : Option (List (List String))
  writable : String → Bool

/-- Execute the chart blocks in order.  Each block draws from the read-only
table its `ChartJob` was built from, writes its file and prints its
confirmation line; the first failing write aborts the run, leaving the
events of the earlier blocks in the trace. -/
def runJobs (env : Env) : List ChartJob → List Event × Outcome
  | [] => ([], .success)
  | j :: rest =>
    if env.writable j.outputPath then
      let (evs, out) := runJobs env rest
      (Event.saved j.outputPath :: Event.printed ("Saved: " ++ j.outputPath) :: evs, out)
    else
      ([], .ioError)

/-- The whole script: open and load the CSV, then run the three chart
blocks.  Any exception propagates uncaught, ending the trace. -/
def run (env : Env) : List Event × Outcome :=
  match env.inputFile with
  | none => ([], .ioError)
  | some records =>
    match loadCSV records with
    | .error (e, _) => ([], .loadFailure e)
    | .ok d => runJobs env (jobsOf d)

/-- The console lines of a trace, in order. -/
def printedLines (tr : List Event) : List String :=
  tr.filterMap fun e =>
    match e with
    | .printed s => some s
    | _ => none

/-- The files written in a trace, in order. -/
def savedFiles (tr : List Event) : List String :=
  tr.filterMap fun e =>
    match e with
    | .saved p => some p
    | _ => none

/-- The five required column names. -/
def requiredColumns : List String := ["threshold", "precision", "recall", "f1", "fpr"]

/-- A data record all five required fields of which parse as floats: the
loader loop gets through it without an exception. -/
def wellFormedRow (fieldnames row : List String) : Prop :=
  ∀ name ∈ requiredColumns, ∃ q : Rat, parseField fieldnames row name = .ok q

instance (fieldnames row : List String) : Decidable (wellFormedRow fieldnames row) := by
  unfold wellFormedRow
  have : ∀ fn r (n : String), Decidable (∃ q : Rat, parseField fn r n = .ok q) := by
    intro fn r n
    match h : parseField fn r n with
    | .ok q => exact .isTrue ⟨q, rfl⟩
    | .error e => exact .isFalse (by simp)
  exact List.decidableBAll _ _

/-- All five sequences of a table have the same length. -/
def balanced (d : MetricsTable) : Prop :=
  d.precision.length = d.threshold.length ∧
  d.«recall».length = d.threshold.length ∧
  d.f1.length = d.threshold.length ∧
  d.fpr.length = d.threshold.length

/-- The parsed value of one required field of a well-formed row (defaulting
to `0` on rows where the parse fails; only used where the parse succeeds). -/
def fieldVal (fieldnames row : List String) (name : String) : Rat :=
  match parseField fieldnames row name with
  | .ok q => q
  | .error _ => 0

/-- One successful loop iteration appends exactly one parsed value to each
of the five sequences. -/
def appendRow (d : MetricsTable) (fieldnames row : List String) : MetricsTable :=
  ⟨d.threshold ++ [fieldVal fieldnames row "threshold"],
   d.precision ++ [fieldVal fieldnames row "precision"],
   d.«recall» ++ [fieldVal fieldnames row "recall"],
   d.f1 ++ [fieldVal fieldnames row "f1"],
   d.fpr ++ [fieldVal fieldnames row "fpr"]⟩

/-- The error of a failed load, if the load failed. -/
def loadErr : Except (LoadError × MetricsTable) MetricsTable → Option LoadError
  | .error (e, _) => some e
  | .ok _ => none

/-- The partially mutated `data` dict at the moment a failed load raised. -/
def loadPartial : Except (LoadError × MetricsTable) MetricsTable → Option MetricsTable
  | .error (_, d) => some d
  | .ok _ => none

/-- A successful loop iteration succeeds on exactly the well-formed rows,
and its net effect is appending the five parsed values. -/
theorem loadRow_ok_inv {d d' : MetricsTable} {fn row : List String}
    (h : loadRow d fn row = .ok d') :
    wellFormedRow fn row ∧ d' = appendRow d fn row := by
  unfold loadRow at h
  split at h
  next e heq => simp at h
  next t heq1 =>
    split at h
    next e heq => simp at h
    next p heq2 =>
      split at h
      next e heq => simp at h
      next r heq3 =>
        split at h
        next e heq => simp at h
        next f heq4 =>
          split at h
          next e heq => simp at h
          next q heq5 =>
            have hd' := (Except.ok.inj h).symm
            constructor
            · intro name hmem
              simp [requiredColumns] at hmem
              rcases hmem with rfl | rfl | rfl | rfl | rfl
              exacts [⟨t, heq1⟩, ⟨p, heq2⟩, ⟨r, heq3⟩, ⟨f, heq4⟩, ⟨q, heq5⟩]
            · rw [hd']
              simp [appendRow, fieldVal, heq1, heq2, heq3, heq4, heq5]

/-- On a well-formed row the loop iteration succeeds, appending the five
parsed values. -/
theorem loadRow_eq_of_wf (d : MetricsTable) (fn row : List String)
    (h : wellFormedRow fn row) :
    loadRow d fn row = .ok (appendRow d fn row) := by
  obtain ⟨t, ht⟩ := h "threshold" (by simp [requiredColumns])
  obtain ⟨p, hp⟩ := h "precision" (by simp [requiredColumns])
  obtain ⟨r, hr⟩ := h "recall" (by simp [requiredColumns])
  obtain ⟨f, hf⟩ := h "f1" (by simp [requiredColumns])
  obtain ⟨q, hq⟩ := h "fpr" (by simp [requiredColumns])
  simp [loadRow, appendRow, fieldVal, ht, hp, hr, hf, hq]

/-- A well-formed row is not a blank record: on a blank record every field
access yields `KeyError` or the `restval` `None`. -/
theorem wellFormedRow_ne_nil {fn row : List String} (h : wellFormedRow fn row) :
    row ≠ [] := by
  intro heq
  obtain ⟨q, hq⟩ := h "threshold" (by simp [requiredColumns])
  subst heq
  unfold parseField dictLookup at hq
  cases hL : lastIndexOf "threshold" fn with
  | none => rw [hL] at hq; simp at hq
  | some j => rw [hL] at hq; simp at hq

/-- Folding `appendRow` over a list of rows appends the five per-row parsed
values columnwise. -/
theorem foldl_appendRow (fn : List String) (rows : List (List String)) (d : MetricsTable) :
    rows.foldl (fun acc row => appendRow acc fn row) d =
      ⟨d.threshold ++ rows.map (fun r => fieldVal fn r "threshold"),
       d.precision ++ rows.map (fun r => fieldVal fn r "precision"),
       d.«recall» ++ rows.map (fun r => fieldVal fn r "recall"),
       d.f1 ++ rows.map (fun r => fieldVal fn r "f1"),
       d.fpr ++ rows.map (fun r => fieldVal fn r "fpr")⟩ := by
  induction rows generalizing d with
  | nil => simp
  | cons r rs ih =>
    rw [List.foldl_cons, ih]
    simp [appendRow]

/-- The loader loop on a list of well-formed rows succeeds and folds
`appendRow` over them. -/
theorem loadRows_eq_of_wf (fn : List String) (rows : List (List String)) (d : MetricsTable)
    (h : ∀ row ∈ rows, wellFormedRow fn row) :
    loadRows fn d rows = .ok (rows.foldl (fun acc row => appendRow acc fn row) d) := by
  induction rows generalizing d with
  | nil => simp [loadRows]
  | cons r rs ih =>
    have hwf := h r (by simp)
    simp only [loadRows, if_neg (wellFormedRow_ne_nil hwf), loadRow_eq_of_wf d fn r hwf]
    exact ih _ (fun row hrow => h row (by simp [hrow]))

/-- Any successful run of the loader loop is the fold of `appendRow` over
the non-blank rows (blank records are skipped by `DictReader`). -/
theorem loadRows_ok_eq {fn : List String} {rows : List (List String)} {d t : MetricsTable}
    (h : loadRows fn d rows = .ok t) :
    t = (rows.filter (fun r => !r.isEmpty)).foldl (fun acc row => appendRow acc fn row) d := by
  induction rows generalizing d with
  | nil =>
    simp only [loadRows] at h
    simp [(Except.ok.inj h).symm]
  | cons r rs ih =>
    by_cases hr : r = []
    · subst hr
      simp only [loadRows, if_pos rfl] at h
      simpa using ih h
    · simp only [loadRows, if_neg hr] at h
      cases hlr : loadRow d fn r with
      | error e => rw [hlr] at h; simp at h
      | ok d' =>
        rw [hlr] at h
        have hshape := (loadRow_ok_inv hlr).2
        have : (r :: rs).filter (fun r => !r.isEmpty) = r :: rs.filter (fun r => !r.isEmpty) := by
          simp [List.filter_cons, List.isEmpty_iff, hr]
        rw [this, List.foldl_cons, ← hshape]
        exact ih h

/-- If some non-blank row is not well-formed, the loader loop aborts with an
error determined by the rows up to and including the first offender: the
result does not depend on any later rows, which are never processed. -/
theorem loadRows_abort (fn : List String) (bad : List String)
    (hbadne : bad ≠ []) (hbad : ¬ wellFormedRow fn bad) :
    ∀ (pre : List (List String)) (d : MetricsTable),
      (∀ row ∈ pre, row = [] ∨ wellFormedRow fn row) →
      ∃ e d', ∀ rest : List (List String),
        loadRows fn d (pre ++ bad :: rest) = .error (e, d') := by
  intro pre
  induction pre with
  | nil =>
    intro d _
    have hferr : ∃ e d', loadRow d fn bad = .error (e, d') := by
      cases h : loadRow d fn bad with
      | ok d' => exact absurd (loadRow_ok_inv h).1 hbad
      | error p =>
        obtain ⟨e, d'⟩ := p
        exact ⟨e, d', rfl⟩
    obtain ⟨e, d', he⟩ := hferr
    refine ⟨e, d', fun rest => ?_⟩
    simp only [List.nil_append, loadRows, if_neg hbadne, he]
  | cons r rs ih =>
    intro d hpre
    rcases hpre r (by simp) with hr | hr
    · subst hr
      obtain ⟨e, d', h⟩ := ih d (fun row hrow => hpre row (by simp [hrow]))
      exact ⟨e, d', fun rest => by
        simpa only [List.cons_append, loadRows, if_pos rfl] using h rest⟩
    · obtain ⟨e, d', h⟩ := ih (appendRow d fn r) (fun row hrow => hpre row (by simp [hrow]))
      exact ⟨e, d', fun rest => by
        simpa only [List.cons_append, loadRows, if_neg (wellFormedRow_ne_nil hr),
          loadRow_eq_of_wf d fn r hr] using h rest⟩

/-- A CSV all of whose data rows are well-formed loads to the columnwise
parse of its rows. -/
theorem loadCSV_wf_eq (header : List String) (dataRows : List (List String))
    (h : ∀ row ∈ dataRows, wellFormedRow header row) :
    loadCSV (header :: dataRows) =
      .ok ⟨dataRows.map (fun r => fieldVal header r "threshold"),
           dataRows.map (fun r => fieldVal header r "precision"),
           dataRows.map (fun r => fieldVal header r "recall"),
           dataRows.map (fun r => fieldVal header r "f1"),
           dataRows.map (fun r => fieldVal header r "fpr")⟩ := by
  show loadRows header emptyTable dataRows = _
  rw [loadRows_eq_of_wf header dataRows emptyTable h, foldl_appendRow]
  simp [emptyTable]

/-- `float(row[name])` depends on the row and header only through the
row-dict lookup of `name`. -/
theorem parseField_congr {fn1 row1 fn2 row2 : List String} (name : String)
    (h : dictLookup fn1 row1 name = dictLookup fn2 row2 name) :
    parseField fn1 row1 name = parseField fn2 row2 name := by
  unfold parseField
  rw [h]

/-- The parsed field value depends on the row and header only through the
row-dict lookup of the field's name. -/
theorem fieldVal_congr {fn1 row1 fn2 row2 : List String} (name : String)
    (h : dictLookup fn1 row1 name = dictLookup fn2 row2 name) :
    fieldVal fn1 row1 name = fieldVal fn2 row2 name := by
  unfold fieldVal
  rw [parseField_congr name h]

/-- The spec's scenario CSV data rows. -/
def sampleRows : List (List String) :=
  [["0.1", "0.9", "0.95", "0.92", "0.05"], ["0.5", "0.8", "0.7", "0.75", "0.02"]]

/-- C1: a well-formed CSV with N data rows, all five required fields of
which parse as floats, loads to a table whose five sequences each have
exactly N entries, the i-th entry of each sequence being the parse of that
field in the i-th data row, in input row order. -/
theorem load_preserves_rows (header : List String) (dataRows : List (List String))
    (hwf : ∀ row ∈ dataRows, wellFormedRow header row) :
    ∃ t, loadCSV (header :: dataRows) = .ok t ∧
      t.threshold.length = dataRows.length ∧
      t.precision.length = dataRows.length ∧
      t.«recall».length = dataRows.length ∧
      t.f1.length = dataRows.length ∧
      t.fpr.length = dataRows.length ∧
      ∀ i row, dataRows.get? i = some row →
        t.threshold.get? i = some (fieldVal header row "threshold") ∧
        t.precision.get? i = some (fieldVal header row "precision") ∧
        t.«recall».get? i = some (fieldVal header row "recall") ∧
        t.f1.get? i = some (fieldVal header row "f1") ∧
        t.fpr.get? i = some (fieldVal header row "fpr") := by
  refine ⟨_, loadCSV_wf_eq header dataRows hwf, by simp, by simp, by simp, by simp, by simp, ?_⟩
  intro i row hrow
  refine ⟨?_, ?_, ?_, ?_, ?_⟩ <;> rw [List.get?_map, hrow] <;> rfl

/-- Witness for C1 at the spec's two-row scenario CSV. -/
theorem load_preserves_rows_witness :
    (∀ row ∈ sampleRows, wellFormedRow requiredColumns row) ∧
    (∃ t, loadCSV (requiredColumns :: sampleRows) = .ok t ∧
      t.threshold.length = sampleRows.length ∧
      t.precision.length = sampleRows.length ∧
      t.«recall».length = sampleRows.length ∧
      t.f1.length = sampleRows.length ∧
      t.fpr.length = sampleRows.length ∧
      ∀ i row, sampleRows.get? i = some row →
        t.threshold.get? i = some (fieldVal requiredColumns row "threshold") ∧
        t.precision.get? i = some (fieldVal requiredColumns row "precision") ∧
        t.«recall».get? i = some (fieldVal requiredColumns row "recall") ∧
        t.f1.get? i = some (fieldVal requiredColumns row "f1") ∧
        t.fpr.get? i = some (fieldVal requiredColumns row "fpr")) :=
  ⟨by decide, load_preserves_rows requiredColumns sampleRows (by decide)⟩

/-- C2 counterexample: on the CSV whose single data row carries only the
threshold field, the loader appends the parsed threshold and only then
raises (`float(None)` for the precision field): at the moment of the error
the threshold sequence has already been mutated for that row (length 1
against 0 for the other four sequences), refuting that the error is raised
before any sequence is mutated. -/
theorem missing_field_mutates_before_error :
    loadErr (loadCSV [["threshold", "precision", "recall", "f1", "fpr"], ["0.5"]]) =
      some .typeError ∧
    (loadPartial (loadCSV [["threshold", "precision", "recall", "f1", "fpr"], ["0.5"]])).map
        (fun d => (d.threshold.length, d.precision.length, d.«recall».length,
                   d.f1.length, d.fpr.length)) =
      some (1, 0, 0, 0, 0) := by
  exact ⟨rfl, rfl⟩

/-- C2 (amended): a non-blank data row missing one of the five required
fields (its lookup yields `KeyError` or the `restval` `None`) makes the
load abort with an error while processing that row, provided the earlier
rows are blank or well-formed; sequences for fields appended earlier in the
iteration may already have been mutated for that row, but the load aborts,
so no completed `MetricsTable` is ever returned — the error and partial
state do not depend on the rows after the failing one, which are never
processed. -/
theorem missing_field_aborts (header : List String) (pre : List (List String))
    (bad : List String) (name : String)
    (hpre : ∀ row ∈ pre, row = [] ∨ wellFormedRow header row)
    (hbadne : bad ≠ [])
    (hname : name ∈ requiredColumns)
    (hmiss : dictLookup header bad name = none ∨ dictLookup header bad name = some none) :
    ∃ e d', ∀ rest : List (List String),
      loadCSV (header :: (pre ++ bad :: rest)) = .error (e, d') := by
  have hbad : ¬ wellFormedRow header bad := by
    intro hwf
    obtain ⟨q, hq⟩ := hwf name hname
    unfold parseField at hq
    rcases hmiss with hm | hm <;> rw [hm] at hq <;> simp at hq
  obtain ⟨e, d', h⟩ := loadRows_abort header bad hbadne hbad pre emptyTable hpre
  exact ⟨e, d', fun rest => h rest⟩

/-- Witness for the amended C2: the required header with a single data row
that lacks its precision field. -/
theorem missing_field_aborts_witness :
    (∀ row ∈ ([] : List (List String)), row = [] ∨ wellFormedRow requiredColumns row) ∧
    (["0.5"] : List String) ≠ [] ∧
    "precision" ∈ requiredColumns ∧
    dictLookup requiredColumns ["0.5"] "precision" = some none ∧
    (∃ e d', ∀ rest : List (List String),
      loadCSV (requiredColumns :: ([] ++ ["0.5"] :: rest)) = .error (e, d')) :=
  ⟨by simp, by simp, by decide, by decide,
    missing_field_aborts requiredColumns [] ["0.5"] "precision" (by simp) (by simp)
      (by decide) (Or.inr (by decide))⟩

/-- C3: when the input CSV file is missing, `open` raises `IOError` before
any chart block runs: the trace is empty — in particular no `savefig` is
reached and no output file is created or modified. -/
theorem missing_input_no_output (env : Env) (h : env.inputFile = none) :
    run env = ([], .ioError) ∧ savedFiles (run env).1 = [] := by
  unfold run
  rw [h]
  exact ⟨rfl, rfl⟩

/-- Witness for C3: an environment with no input file. -/
theorem missing_input_no_output_witness :
    run ⟨none, fun _ => true⟩ = ([], .ioError) ∧
    savedFiles (run ⟨none, fun _ => true⟩).1 = [] :=
  missing_input_no_output ⟨none, fun _ => true⟩ rfl

/-- C4: any successful load yields a table whose five sequences have equal
length, and the run hands that very table, unchanged, to all three chart
blocks (they only read it). -/
theorem load_balanced_read_only (records : List (List String)) (t : MetricsTable) (env : Env)
    (h1 : loadCSV records = .ok t) (h2 : env.inputFile = some records) :
    balanced t ∧ run env = runJobs env [job1 t, job2 t, job3 t] := by
  constructor
  · cases records with
    | nil =>
      have ht : emptyTable = t := Except.ok.inj h1
      rw [← ht]
      simp [balanced, emptyTable]
    | cons header rows =>
      have h1' : loadRows header emptyTable rows = .ok t := h1
      rw [loadRows_ok_eq h1', foldl_appendRow]
      simp [balanced, emptyTable]
  · unfold run
    simp only [h2, h1]
    rfl

/-- Witness for C4 at the header-only CSV. -/
theorem load_balanced_read_only_witness :
    balanced emptyTable ∧
    run ⟨some [requiredColumns], fun _ => true⟩ =
      runJobs ⟨some [requiredColumns], fun _ => true⟩
        [job1 emptyTable, job2 emptyTable, job3 emptyTable] :=
  load_balanced_read_only [requiredColumns] emptyTable
    ⟨some [requiredColumns], fun _ => true⟩ rfl rfl

/-- C5 counterexample: a CSV whose header lacks every required column but
which has no data rows loads successfully (the loop body never runs and the
reader never validates the header), refuting that a missing required column
always aborts the load with a parse error. -/
theorem missing_column_no_rows_loads :
    loadCSV [["foo"]] = .ok emptyTable ∧ "threshold" ∉ (["foo"] : List String) :=
  ⟨rfl, by decide⟩

/-- C5 (amended): whenever the CSV has a non-blank data row on which some
required field access or float conversion fails — in particular any
non-blank row when a required column is missing from the header, or a row
with a non-numeric required field — the whole load aborts with an error:
no `MetricsTable` is produced and the result does not depend on the rows
after the first failing one, which are never processed.  (With zero
non-blank data rows the load succeeds even if the header lacks required
columns, since columns are only validated per-row.) -/
theorem load_aborts_first_bad_row (header : List String) (pre : List (List String))
    (bad : List String)
    (hpre : ∀ row ∈ pre, row = [] ∨ wellFormedRow header row)
    (hbadne : bad ≠ []) (hbad : ¬ wellFormedRow header bad) :
    ∃ e d', ∀ rest : List (List String),
      loadCSV (header :: (pre ++ bad :: rest)) = .error (e, d') := by
  obtain ⟨e, d', h⟩ := loadRows_abort header bad hbadne hbad pre emptyTable hpre
  exact ⟨e, d', fun rest => h rest⟩

/-- Witness for the amended C5: a blank record followed by a row whose
threshold field is not numeric. -/
theorem load_aborts_first_bad_row_witness :
    (∀ row ∈ [([] : List String)], row = [] ∨ wellFormedRow requiredColumns row) ∧
    (["x", "1", "1", "1", "1"] : List String) ≠ [] ∧
    ¬ wellFormedRow requiredColumns ["x", "1", "1", "1", "1"] ∧
    (∃ e d', ∀ rest : List (List String),
      loadCSV (requiredColumns :: ([[]] ++ ["x", "1", "1", "1", "1"] :: rest)) =
        .error (e, d')) :=
  ⟨by simp, by simp, by decide,
    load_aborts_first_bad_row requiredColumns [[]] ["x", "1", "1", "1", "1"]
      (by simp) (by simp) (by decide)⟩

/-- C6: a fully successful run writes the three files and prints exactly
three console lines, one per written image, each `Saved: <path>` with the
path just written, in job order: precision-recall, threshold, pseudo-ROC. -/
theorem success_prints_three_lines (records : List (List String)) (t : MetricsTable) (env : Env)
    (h1 : env.inputFile = some records) (h2 : loadCSV records = .ok t)
    (h3 : env.writable outPR = true) (h4 : env.writable outThreshold = true)
    (h5 : env.writable outROC = true) :
    run env = ([.saved outPR, .printed ("Saved: " ++ outPR),
                .saved outThreshold, .printed ("Saved: " ++ outThreshold),
                .saved outROC, .printed ("Saved: " ++ outROC)], .success) ∧
    printedLines (run env).1 =
      ["Saved: " ++ outPR, "Saved: " ++ outThreshold, "Saved: " ++ outROC] := by
  have hrun : run env = ([.saved outPR, .printed ("Saved: " ++ outPR),
      .saved outThreshold, .printed ("Saved: " ++ outThreshold),
      .saved outROC, .printed ("Saved: " ++ outROC)], .success) := by
    unfold run
    simp only [h1, h2]
    simp [jobsOf, runJobs, job1, job2, job3, h3, h4, h5]
  exact ⟨hrun, by rw [hrun]; rfl⟩

/-- Witness for C6: the header-only CSV with every output path writable. -/
theorem success_prints_three_lines_witness :
    run ⟨some [requiredColumns], fun _ => true⟩ =
      ([.saved outPR, .printed ("Saved: " ++ outPR),
        .saved outThreshold, .printed ("Saved: " ++ outThreshold),
        .saved outROC, .printed ("Saved: " ++ outROC)], .success) ∧
    printedLines (run ⟨some [requiredColumns], fun _ => true⟩).1 =
      ["Saved: " ++ outPR, "Saved: " ++ outThreshold, "Saved: " ++ outROC] :=
  success_prints_three_lines [requiredColumns] emptyTable
    ⟨some [requiredColumns], fun _ => true⟩ rfl rfl rfl rfl rfl

/-- C7: when a later chart block's write fails, the run terminates at once
with an I/O error; the files written by the earlier blocks stay in the
trace (the model has no deletion event, matching the script's lack of any
cleanup), and the failing and later blocks write nothing. -/
theorem render_failure_keeps_earlier_outputs (records : List (List String)) (t : MetricsTable)
    (env : Env) (h1 : env.inputFile = some records) (h2 : loadCSV records = .ok t) :
    (env.writable outPR = true → env.writable outThreshold = false →
      run env = ([.saved outPR, .printed ("Saved: " ++ outPR)], .ioError) ∧
      savedFiles (run env).1 = [outPR]) ∧
    (env.writable outPR = true → env.writable outThreshold = true →
      env.writable outROC = false →
      run env = ([.saved outPR, .printed ("Saved: " ++ outPR),
                  .saved outThreshold, .printed ("Saved: " ++ outThreshold)], .ioError) ∧
      savedFiles (run env).1 = [outPR, outThreshold]) := by
  constructor
  · intro h3 h4
    have hrun : run env = ([.saved outPR, .printed ("Saved: " ++ outPR)], .ioError) := by
      unfold run
      simp only [h1, h2]
      simp [jobsOf, runJobs, job1, job2, job3, h3, h4]
    exact ⟨hrun, by rw [hrun]; rfl⟩
  · intro h3 h4 h5
    have hrun : run env = ([.saved outPR, .printed ("Saved: " ++ outPR),
        .saved outThreshold, .printed ("Saved: " ++ outThreshold)], .ioError) := by
      unfold run
      simp only [h1, h2]
      simp [jobsOf, runJobs, job1, job2, job3, h3, h4, h5]
    exact ⟨hrun, by rw [hrun]; rfl⟩

/-- Witness for C7: only the precision-recall path is writable, so block 2
fails; block 1's file and line survive in the trace. -/
theorem render_failure_keeps_earlier_outputs_witness :
    run ⟨some [requiredColumns], fun p => p == outPR⟩ =
      ([.saved outPR, .printed ("Saved: " ++ outPR)], .ioError) ∧
    savedFiles (run ⟨some [requiredColumns], fun p => p == outPR⟩).1 = [outPR] :=
  (render_failure_keeps_earlier_outputs [requiredColumns] emptyTable
    ⟨some [requiredColumns], fun p => p == outPR⟩ rfl rfl).1 (by decide) (by decide)

/-- C8: chart block 1 plots recall on x against precision on y as a single
series, block 2 plots precision, recall and f1 against threshold as three
series plus a horizontal reference line at 0, block 3 plots recall against
fpr as a single series, and the three blocks write to three pairwise
distinct fixed paths. -/
theorem chart_jobs_pairings (d : MetricsTable) :
    (job1 d).series = [("Precision-Recall", d.«recall», d.precision)] ∧
    (job1 d).axhlines = [] ∧
    (job1 d).outputPath = outPR ∧
    (job2 d).series = [("Precision", d.threshold, d.precision),
                       ("Recall", d.threshold, d.«recall»),
                       ("F1", d.threshold, d.f1)] ∧
    (job2 d).axhlines = [0] ∧
    (job2 d).outputPath = outThreshold ∧
    (job3 d).series = [("ROC (approx)", d.fpr, d.«recall»)] ∧
    (job3 d).axhlines = [] ∧
    (job3 d).outputPath = outROC ∧
    outPR ≠ outThreshold ∧ outPR ≠ outROC ∧ outThreshold ≠ outROC := by
  refine ⟨rfl, rfl, rfl, rfl, rfl, rfl, rfl, rfl, rfl, ?_, ?_, ?_⟩ <;> decide

/-- C9: the loaded table depends only on the five required columns — two
well-formed CSVs with the same number of data rows whose row-dict lookups
of the five required names agree row by row (whatever the header order and
extra columns) load to identical results. -/
theorem load_depends_only_on_required (hd1 hd2 : List String) (d1 d2 : List (List String))
    (hlen : d1.length = d2.length)
    (hwf1 : ∀ row ∈ d1, wellFormedRow hd1 row)
    (hwf2 : ∀ row ∈ d2, wellFormedRow hd2 row)
    (hagree : ∀ i < d1.length, ∀ name ∈ requiredColumns,
      ((d1.get? i).map fun r => dictLookup hd1 r name) =
      ((d2.get? i).map fun r => dictLookup hd2 r name)) :
    loadCSV (hd1 :: d1) = loadCSV (hd2 :: d2) := by
  have hmap : ∀ name ∈ requiredColumns,
      d1.map (fun r => fieldVal hd1 r name) = d2.map (fun r => fieldVal hd2 r name) := by
    intro name hname
    apply List.ext_get?
    intro n
    rw [List.get?_map, List.get?_map]
    cases he1 : d1.get? n with
    | none =>
      have hge : d1.length ≤ n := List.get?_eq_none.mp he1
      have he2 : d2.get? n = none := List.get?_eq_none.mpr (hlen ▸ hge)
      rw [he2]
      rfl
    | some r1 =>
      have hn : n < d1.length := by
        obtain ⟨hlt, -⟩ := List.get?_eq_some.mp he1
        exact hlt
      cases he2 : d2.get? n with
      | none =>
        have hge : d2.length ≤ n := List.get?_eq_none.mp he2
        omega
      | some r2 =>
        have hag := hagree n hn name hname
        rw [he1, he2] at hag
        have : dictLookup hd1 r1 name = dictLookup hd2 r2 name := Option.some.inj hag
        simp [fieldVal_congr name this]
  rw [loadCSV_wf_eq hd1 d1 hwf1, loadCSV_wf_eq hd2 d2 hwf2]
  rw [hmap "threshold" (by simp [requiredColumns]),
      hmap "precision" (by simp [requiredColumns]),
      hmap "recall" (by simp [requiredColumns]),
      hmap "f1" (by simp [requiredColumns]),
      hmap "fpr" (by simp [requiredColumns])]

/-- Witness for C9: the same single measurement under the canonical header
and under a permuted header with an extra ignored column. -/
theorem load_depends_only_on_required_witness :
    (([["0.5", "0.9", "0.8", "0.7", "0.1"]] : List (List String)).length =
      ([["junk", "0.1", "0.7", "0.8", "0.9", "0.5"]] : List (List String)).length) ∧
    (∀ row ∈ [["0.5", "0.9", "0.8", "0.7", "0.1"]], wellFormedRow requiredColumns row) ∧
    (∀ row ∈ [["junk", "0.1", "0.7", "0.8", "0.9", "0.5"]],
      wellFormedRow ["extra", "fpr", "f1", "recall", "precision", "threshold"] row) ∧
    (∀ i < ([["0.5", "0.9", "0.8", "0.7", "0.1"]] : List (List String)).length,
      ∀ name ∈ requiredColumns,
      (([["0.5", "0.9", "0.8", "0.7", "0.1"]] : List (List String)).get? i |>.map
        fun r => dictLookup requiredColumns r name) =
      (([["junk", "0.1", "0.7", "0.8", "0.9", "0.5"]] : List (List String)).get? i |>.map
        fun r => dictLookup ["extra", "fpr", "f1", "recall", "precision", "threshold"] r name)) ∧
    loadCSV (requiredColumns :: [["0.5", "0.9", "0.8", "0.7", "0.1"]]) =
      loadCSV (["extra", "fpr", "f1", "recall", "precision", "threshold"] ::
        [["junk", "0.1", "0.7", "0.8", "0.9", "0.5"]]) :=
  ⟨by decide, by decide, by decide, by decide,
    load_depends_only_on_required requiredColumns
      ["extra", "fpr", "f1", "recall", "precision", "threshold"]
      [["0.5", "0.9", "0.8", "0.7", "0.1"]] [["junk", "0.1", "0.7", "0.8", "0.9", "0.5"]]
      (by decide) (by decide) (by decide) (by decide)⟩

/-- C10: a CSV holding only the required header and zero data rows loads to
five empty sequences, all three chart blocks still run (plotting empty
series), all three files are written and all three confirmation lines are
printed. -/
theorem header_only_runs_all_jobs (env : Env)
    (h1 : env.inputFile = some [requiredColumns])
    (h3 : env.writable outPR = true) (h4 : env.writable outThreshold = true)
    (h5 : env.writable outROC = true) :
    loadCSV [requiredColumns] = .ok emptyTable ∧
    run env = ([.saved outPR, .printed ("Saved: " ++ outPR),
                .saved outThreshold, .printed ("Saved: " ++ outThreshold),
                .saved outROC, .printed ("Saved: " ++ outROC)], .success) ∧
    savedFiles (run env).1 = [outPR, outThreshold, outROC] ∧
    printedLines (run env).1 =
      ["Saved: " ++ outPR, "Saved: " ++ outThreshold, "Saved: " ++ outROC] := by
  have hload : loadCSV [requiredColumns] = .ok emptyTable := rfl
  have hrun : run env = ([.saved outPR, .printed ("Saved: " ++ outPR),
      .saved outThreshold, .printed ("Saved: " ++ outThreshold),
      .saved outROC, .printed ("Saved: " ++ outROC)], .success) := by
    unfold run
    simp only [h1, hload]
    simp [jobsOf, runJobs, job1, job2, job3, h3, h4, h5]
  exact ⟨hload, hrun, by rw [hrun]; rfl, by rw [hrun]; rfl⟩

/-- Witness for C10: the header-only CSV with every output path writable. -/
theorem header_only_runs_all_jobs_witness :
    loadCSV [requiredColumns] = .ok emptyTable ∧
    run ⟨some [requiredColumns], fun _ => true⟩ =
      ([.saved outPR, .printed ("Saved: " ++ outPR),
        .saved outThreshold, .printed ("Saved: " ++ outThreshold),
        .saved outROC, .printed ("Saved: " ++ outROC)], .success) ∧
    savedFiles (run ⟨some [requiredColumns], fun _ => true⟩).1 =
      [outPR, outThreshold, outROC] ∧
    printedLines (run ⟨some [requiredColumns], fun _ => true⟩).1 =
      ["Saved: " ++ outPR, "Saved: " ++ outThreshold, "Saved: " ++ outROC] :=
  header_only_runs_all_jobs ⟨some [requiredColumns], fun _ => true⟩ rfl rfl rfl rfl

end GenPlots
